import Mathlib

/-!
# Verification of the oreilly-books fetch/aggregate pipeline

Shallow embedding of the Go program in `main.go` (and the second,
channel-streaming variant of the same program).  The embedding covers:

* the data model (`Product`, `Response`, mirroring the Go structs);
* `formatCategories`, including the Go slice expression
  `formatted[:len(formatted)-3]`, whose potential runtime bounds panic is
  modelled explicitly via `Option`;
* the two output writers, modelled as pure functions from the aggregated
  product list to the rows / lines they write;
* an operational model of the concurrent fetch/aggregate pipeline
  (`fetchProducts` + the channel consumer in `main`): a scheduler-driven
  small-step state machine over dispatcher, fetch tasks, the bounded
  `productsChan` and the draining consumer.
-/

set_option autoImplicit false

/-- Go struct `CustomAttributes` nested in `Product` (`main.go` lines 33-36). -/
structure CustomAttributes where
  publishers : List String
  publicationDate : String
deriving DecidableEq, Repr

/-- Go struct `Product` (`main.go` lines 24-38). -/
structure Product where
  productID : String
  url : String
  language : String
  title : String
  type : String
  description : String
  categories : List (List String)
  coverImage : String
  customAttributes : CustomAttributes
  authors : List String
deriving DecidableEq, Repr

/-- The `Data` block of the Go struct `Response` (`main.go` lines 17-21). -/
structure ResponseData where
  products : List Product
  total : Int
  start : Int
deriving DecidableEq, Repr

/-- Go struct `Response` (`main.go` lines 15-22). -/
structure Response where
  message : String
  data : ResponseData
deriving DecidableEq, Repr

/-! ## formatCategories (`main.go` lines 213-224)

The Go loop builds `formatted` by appending `category[0] + " > "` for every
non-empty category path, then strips the trailing separator with the slice
expression `formatted[:len(formatted)-3]`, which panics when the upper bound
is negative or exceeds the string length.  The slice is byte-indexed in Go;
since the stripped suffix `" > "` is pure ASCII the character-indexed model
below coincides with it on every reachable string. -/

/-- The accumulation loop of `formatCategories`: for each category path,
append `head ++ " > "` when the path is non-empty. -/
def formatAccum (categories : List (List String)) : String :=
  categories.foldl
    (fun formatted category =>
      match category with
      | [] => formatted
      | c :: _ => formatted ++ (c ++ " > "))
    ""

/-- Go slice expression `s[:n]` on a string: valid when `0 ≤ n ≤ len(s)`,
otherwise a runtime bounds panic, modelled as `none`. -/
def goSliceUpTo (s : String) (n : Int) : Option String :=
  if 0 ≤ n ∧ n ≤ (s.length : Int) then some (String.mk (s.data.take n.toNat)) else none

/-- `formatCategories` with the Go slice's partiality made explicit:
`none` models the bounds panic of `formatted[:len(formatted)-3]`. -/
def formatCategoriesRun (categories : List (List String)) : Option String :=
  let formatted := formatAccum categories
  if 0 < formatted.length then goSliceUpTo formatted ((formatted.length : Int) - 3)
  else some formatted

/-- Go `formatCategories`: total wrapper of `formatCategoriesRun`
(justified by `formatCategoriesRun_isSome`: the slice never panics). -/
def formatCategories (categories : List (List String)) : String :=
  (formatCategoriesRun categories).getD ""

/-! ## Output writers (`main.go` lines 136-211)

`writeCSV` and `writeMarkdown` are modelled as the sequence of records /
lines they write to their file: file-system effects are isolated in the
`runOutput` model further below. -/

/-- CSV header row (`main.go` line 147). -/
def csvHeader : List String :=
  ["Title", "Publication Date", "URL", "Type", "Language", "Categories",
   "Cover Image", "Publishers", "Authors"]

/-- Go `fmt.Sprintf("%v", s)` for a `[]string`: elements space-separated
inside square brackets. -/
def goSprintfV (l : List String) : String :=
  "[" ++ String.intercalate " " l ++ "]"

/-- One CSV data row (`main.go` lines 155-165): the 9 fields in source order. -/
def csvRow (p : Product) : List String :=
  [p.title, p.customAttributes.publicationDate, p.url, p.type, p.language,
   formatCategories p.categories, p.coverImage,
   goSprintfV p.customAttributes.publishers, goSprintfV p.authors]

/-- `writeCSV` as the list of records it writes: header then one row per
product, in order. -/
def writeCSVRows (products : List Product) : List (List String) :=
  csvHeader :: products.map csvRow

/-- Markdown header line (`main.go` lines 183-184). -/
def markdownHeaderLine : String :=
  "| " ++ String.intercalate " | " ["Title", "Publication Date", "Categories"] ++ " |\n"

/-- Markdown separator line (`main.go` lines 190-194): one `---` per header column. -/
def markdownSeparatorLine : String :=
  "| " ++ String.intercalate " | " ["---", "---", "---"] ++ " |\n"

/-- One Markdown item line (`main.go` line 203). -/
def markdownItemLine (p : Product) : String :=
  "| [" ++ p.title ++ "](" ++ p.url ++ ") | " ++ p.customAttributes.publicationDate
    ++ " | " ++ formatCategories p.categories ++ " |\n"

/-- `writeMarkdown` as the list of lines it writes: header, separator, then
one line per product. -/
def writeMarkdownLines (products : List Product) : List String :=
  markdownHeaderLine :: markdownSeparatorLine :: products.map markdownItemLine

/-! ### Properties of `formatAccum` -/

/-- The loop body of `formatCategories`. -/
def formatStep (formatted : String) (category : List String) : String :=
  match category with
  | [] => formatted
  | c :: _ => formatted ++ (c ++ " > ")

theorem formatAccum_eq_foldl (categories : List (List String)) :
    formatAccum categories = categories.foldl formatStep "" := rfl

/-- The accumulator invariant of the `formatCategories` loop: starting from a
string that is empty or ends in `" > "`, the loop keeps that shape. -/
theorem foldl_formatStep_suffix (categories : List (List String)) :
    ∀ acc : String, (acc = "" ∨ ∃ t, acc = t ++ " > ") →
      (categories.foldl formatStep acc = "" ∨
        ∃ t, categories.foldl formatStep acc = t ++ " > ") := by
  induction categories with
  | nil => intro acc h; simpa using h
  | cons hd tl ih =>
    intro acc h
    cases hd with
    | nil => exact ih acc h
    | cons c cs =>
      refine ih (acc ++ (c ++ " > ")) (Or.inr ⟨acc ++ c, ?_⟩)
      rw [String.append_assoc]

/-- `formatAccum` yields the empty string or a string ending in `" > "`. -/
theorem formatAccum_empty_or_suffix (categories : List (List String)) :
    formatAccum categories = "" ∨ ∃ t, formatAccum categories = t ++ " > " :=
  foldl_formatStep_suffix categories "" (Or.inl rfl)

/-- An empty category path anywhere in the forest is skipped by the loop. -/
theorem formatAccum_skip_empty (pre post : List (List String)) :
    formatAccum (pre ++ [] :: post) = formatAccum (pre ++ post) := by
  simp [formatAccum_eq_foldl, List.foldl_append, List.foldl_cons, formatStep]

/-- The trim of the trailing separator never panics: the accumulated string is
either empty (the slice is skipped) or has length at least 3. -/
theorem formatCategoriesRun_isSome (categories : List (List String)) :
    (formatCategoriesRun categories).isSome = true := by
  rcases formatAccum_empty_or_suffix categories with h | ⟨t, h⟩
  · simp [formatCategoriesRun, h]
  · have hlen : (formatAccum categories).length = t.length + 3 := by
      rw [h, String.length_append]; rfl
    simp only [formatCategoriesRun, goSliceUpTo, hlen]
    split
    · split
      · rfl
      · rename_i hcond
        exfalso
        apply hcond
        constructor <;> push_cast <;> omega
    · rename_i hcond
      exact absurd (by omega : 0 < t.length + 3) hcond

/-! ## Claim C4 and C10 -/

/-- C4: `formatCategories` on the forest `[["Programming","Go"], ["Web"]]`
returns `"Programming > Web"` (first label of each top-level path, joined by
`" > "`), and on the empty forest returns `""`. -/
theorem formatCategories_examples :
    formatCategories [["Programming", "Go"], ["Web"]] = "Programming > Web" ∧
    formatCategories [] = "" := by
  constructor <;> decide

/-- C10: `formatCategories` is total: the slice `formatted[:len(formatted)-3]`
never panics (every inner run is `some`), an inner category path with no
labels contributes nothing, and a non-empty accumulated string ends in
`" > "`, hence has length at least 3, so the trim bound is in range. -/
theorem formatCategories_total (cs pre post : List (List String)) :
    (formatCategoriesRun cs).isSome = true ∧
    formatCategoriesRun (pre ++ [] :: post) = formatCategoriesRun (pre ++ post) ∧
    (formatAccum cs = "" ∨
      ∃ t, formatAccum cs = t ++ " > " ∧ 3 ≤ (formatAccum cs).length) := by
  refine ⟨formatCategoriesRun_isSome cs, ?_, ?_⟩
  · unfold formatCategoriesRun
    rw [formatAccum_skip_empty]
  · rcases formatAccum_empty_or_suffix cs with h | ⟨t, h⟩
    · exact Or.inl h
    · refine Or.inr ⟨t, h, ?_⟩
      rw [h, String.length_append]
      have : (" > " : String).length = 3 := rfl
      omega

/-! ## Claim C9: CSV row structure -/

/-- C9: the CSV writer emits one header record and then one record per
product, each consisting of exactly 9 columns in the fixed order Title,
Publication Date, URL, Type, Language, flattened Categories, Cover Image,
Publishers rendered as text, Authors rendered as text. -/
theorem writeCSV_structure (products : List Product) :
    (writeCSVRows products).head? = some csvHeader ∧
    (writeCSVRows products).tail = products.map (fun p =>
      [p.title, p.customAttributes.publicationDate, p.url, p.type, p.language,
       formatCategories p.categories, p.coverImage,
       goSprintfV p.customAttributes.publishers, goSprintfV p.authors]) ∧
    (∀ row ∈ writeCSVRows products, row.length = 9) := by
  refine ⟨rfl, rfl, ?_⟩
  intro row hrow
  rcases List.mem_cons.mp hrow with h | h
  · rw [h]; rfl
  · rcases List.mem_map.mp h with ⟨p, -, hp⟩
    rw [← hp]; rfl

/-- A concrete product used by the witnesses below. -/
def sampleProduct : Product :=
  { productID := "9781000000001"
    url := "https://example.org/book"
    language := "en"
    title := "Sample Title"
    type := "book"
    description := "d"
    categories := [["Programming", "Go"], ["Web"]]
    coverImage := "cover.png"
    customAttributes := { publishers := ["PubA", "PubB"], publicationDate := "2024-01-02" }
    authors := ["Au"] }

theorem writeCSV_structure_witness :
    (writeCSVRows [sampleProduct]).head? = some csvHeader ∧
    (csvRow sampleProduct).length = 9 := by
  have h := writeCSV_structure [sampleProduct]
  exact ⟨h.1, h.2.2 (csvRow sampleProduct) (by simp [writeCSVRows])⟩

/-! ## Output sequencing (`main.go` lines 71-83)

`main` writes the CSV file, calls `log.Fatalf` (which aborts the process) on
error, and only then writes the Markdown file, again fatally on error.
File-system failures are environmental, so the model takes per-writer error
oracles; the control flow is the source's. -/

/-- Environment oracle: whether each writer's file creation/write fails, and
with what error text. -/
structure WriterEnv where
  csvErr : Option String
  mdErr : Option String
deriving DecidableEq, Repr

/-- Observable outcome of the output phase of `main`. -/
structure OutputResult where
  csvOut : Option (List (List String))
  mdOut : Option (List String)
  fatalMsg : Option String
deriving DecidableEq, Repr

/-- The output phase of `main` (`main.go` lines 75-81): `writeCSV`, fatal on
error, then `writeMarkdown`, fatal on error. -/
def runOutput (env : WriterEnv) (products : List Product) : OutputResult :=
  match env.csvErr with
  | some e => { csvOut := none, mdOut := none, fatalMsg := some ("Error writing CSV: " ++ e) }
  | none =>
    match env.mdErr with
    | some e =>
        { csvOut := some (writeCSVRows products), mdOut := none,
          fatalMsg := some ("Error writing Markdown: " ++ e) }
    | none =>
        { csvOut := some (writeCSVRows products),
          mdOut := some (writeMarkdownLines products), fatalMsg := none }

/-- C8: an output error is fatal — the run aborts (a fatal message is
produced exactly when a writer fails, with no retry and no recovery), and
because the writers are sequenced fatally, a CSV failure prevents the
Markdown writer from running at all. -/
theorem outputError_fatal (env : WriterEnv) (products : List Product) :
    (runOutput env products).fatalMsg.isSome = (env.csvErr.isSome || env.mdErr.isSome) ∧
    (env.csvErr.isSome = true →
      (runOutput env products).mdOut = none ∧ (runOutput env products).csvOut = none) := by
  rcases env with ⟨csvErr, mdErr⟩
  cases csvErr <;> cases mdErr <;> simp [runOutput]

theorem outputError_fatal_witness :
    (runOutput ⟨some "disk full", none⟩ []).fatalMsg.isSome = true ∧
    (runOutput ⟨some "disk full", none⟩ []).mdOut = none := by
  have h := outputError_fatal ⟨some "disk full", none⟩ []
  exact ⟨h.1, (h.2 rfl).1⟩

/-! ## The concurrent fetch/aggregate pipeline

`fetchProducts` (`main.go` lines 86-110) dispatches one goroutine per page
index in `[0, pageMax)`, acquiring one slot of the semaphore channel `sem`
(capacity `maxConcurrent`) before each launch; the task releases the slot
when it finishes.  A task whose `fetchData` call fails logs and returns
without sending; a successful task sends its product batch on `productsChan`
(capacity `maxConcurrent`).  A single consumer drains `productsChan` into
`allProducts`.

The two source variants differ only in when `productsChan` is closed:

* `main.go` closes it as soon as `fetchProducts` (the dispatch loop)
  returns, without waiting for the spawned tasks (lines 54-59);
* the `part_000` variant first waits on the `WaitGroup` that counts every
  task, then closes (lines 64-66).

`Cfg.waitsBeforeClose` selects the variant.  The network is an oracle
`fetch : Nat → Option Response` (`none` is a transport/decode failure).  A
scheduler is a list of actions; disabled actions leave the state unchanged,
which models blocking.  A send on a closed channel sets `panicked` (in Go
this panic crashes the process), after which the state is stuck. -/

/-- Scheduler action: one atomic step of the dispatcher, of the fetch task
for a page, or of the draining consumer. -/
inductive Act where
  | dispatch : Act
  | closeCh : Act
  | task : Nat → Act
  | recv : Act
deriving DecidableEq, Repr

/-- Static run configuration. -/
structure Cfg where
  pageMax : Nat
  maxConcurrent : Nat
  fetch : Nat → Option Response
  waitsBeforeClose : Bool

/-- Pipeline state.  `tasks` holds the page indices of the in-flight fetch
goroutines (each holds one semaphore slot); `chanBuf` is the FIFO content of
`productsChan`, each batch tagged with its page; `agg` is `allProducts`;
`dispatched` and `sentPages` are history variables recording the dispatch
and send events in order. -/
structure PoolState where
  nextPage : Nat
  tasks : List Nat
  chanBuf : List (Nat × List Product)
  chanClosed : Bool
  agg : List Product
  dispatched : List Nat
  sentPages : List Nat
  panicked : Bool
deriving DecidableEq, Repr

/-- Initial state of a run. -/
def initState : PoolState :=
  { nextPage := 0, tasks := [], chanBuf := [], chanClosed := false,
    agg := [], dispatched := [], sentPages := [], panicked := false }

/-- The loop body of `fetchProducts`: acquire one semaphore slot — only
possible below capacity — and launch the task for the next page. -/
def stepDispatch (cfg : Cfg) (s : PoolState) : PoolState :=
  if s.nextPage < cfg.pageMax ∧ s.tasks.length < cfg.maxConcurrent then
    { s with nextPage := s.nextPage + 1, tasks := s.tasks ++ [s.nextPage], dispatched := s.dispatched ++ [s.nextPage] }
  else s

/-- The dispatcher's `close(productsChan)`; in the `part_000` variant it is
preceded by `wg.Wait()`, i.e. it can only run once every task has finished. -/
def stepClose (cfg : Cfg) (s : PoolState) : PoolState :=
  if s.nextPage = cfg.pageMax ∧ s.chanClosed = false ∧ (cfg.waitsBeforeClose = true → s.tasks = []) then
    { s with chanClosed := true }
  else s

/-- The whole body of the goroutine for page `p`: on fetch failure just log
and release the slot; on success send the batch — blocking while the channel
buffer is full, panicking if the channel is already closed — then release
the slot. -/
def stepTask (cfg : Cfg) (s : PoolState) (p : Nat) : PoolState :=
  if p ∈ s.tasks then
    match cfg.fetch p with
    | none => { s with tasks := s.tasks.erase p }
    | some resp =>
        if s.chanClosed then { s with panicked := true }
        else if s.chanBuf.length < cfg.maxConcurrent then
          { s with tasks := s.tasks.erase p, chanBuf := s.chanBuf ++ [(p, resp.data.products)], sentPages := s.sentPages ++ [p] }
        else s
  else s

/-- The consumer appends one received batch to `allProducts`. -/
def stepRecv (s : PoolState) : PoolState :=
  match s.chanBuf with
  | [] => s
  | (_, b) :: rest => { s with chanBuf := rest, agg := s.agg ++ b }

/-- One scheduler step: a panicked run is stuck; otherwise the chosen
component takes its atomic step (disabled components leave the state
unchanged, which models blocking). -/
def step (cfg : Cfg) (s : PoolState) (a : Act) : PoolState :=
  if s.panicked then s
  else
    match a with
    | Act.dispatch => stepDispatch cfg s
    | Act.closeCh => stepClose cfg s
    | Act.task p => stepTask cfg s p
    | Act.recv => stepRecv s

/-- Run a whole schedule from the initial state. -/
def runSched (cfg : Cfg) (acts : List Act) : PoolState :=
  acts.foldl (step cfg) initState

/-- The run has finished cleanly: the dispatch loop is done, every task has
completed, the channel was closed and fully drained, and nothing panicked. -/
def CompleteRun (cfg : Cfg) (s : PoolState) : Prop :=
  s.nextPage = cfg.pageMax ∧ s.tasks = [] ∧ s.chanClosed = true ∧
    s.chanBuf = [] ∧ s.panicked = false

instance (cfg : Cfg) (s : PoolState) : Decidable (CompleteRun cfg s) := by
  unfold CompleteRun; infer_instance

/-- The batch a page contributes: its decoded products on success, nothing on
fetch failure. -/
def optBatch (cfg : Cfg) (p : Nat) : List Product :=
  match cfg.fetch p with
  | none => []
  | some resp => resp.data.products

/-- Concatenation of the batches of the succeeding pages among `l`. -/
def succBatches (cfg : Cfg) (l : List Nat) : List Product :=
  (l.map (optBatch cfg)).flatten

/-- The batches currently buffered in the channel, in FIFO order. -/
def bufBatches (s : PoolState) : List Product :=
  (s.chanBuf.map Prod.snd).flatten

/-- The pages the dispatch loop has not yet reached. -/
def pendingPages (cfg : Cfg) (s : PoolState) : List Nat :=
  List.range' s.nextPage (cfg.pageMax - s.nextPage)

/-- Conservation of records: aggregated + buffered + in-flight + not yet
dispatched accounts for every succeeding page's batch exactly once. -/
def BatchAccounting (cfg : Cfg) (s : PoolState) : Prop :=
  ((s.agg : Multiset Product) + (bufBatches s : Multiset Product)
      + (succBatches cfg s.tasks : Multiset Product)
      + (succBatches cfg (pendingPages cfg s) : Multiset Product))
    = (succBatches cfg (List.range cfg.pageMax) : Multiset Product)

/-- Run invariant, preserved by every scheduler step. -/
def RunInv (cfg : Cfg) (s : PoolState) : Prop :=
  s.nextPage ≤ cfg.pageMax ∧
  s.dispatched = List.range s.nextPage ∧
  s.tasks.length ≤ cfg.maxConcurrent ∧
  (∀ p ∈ s.sentPages, (cfg.fetch p).isSome = true) ∧
  (s.panicked = false → BatchAccounting cfg s)

/-! ### Bookkeeping lemmas for the invariant -/

theorem succBatches_nil (cfg : Cfg) : succBatches cfg [] = [] := rfl

theorem succBatches_cons (cfg : Cfg) (p : Nat) (l : List Nat) :
    succBatches cfg (p :: l) = optBatch cfg p ++ succBatches cfg l := by
  simp [succBatches]

theorem succBatches_append (cfg : Cfg) (l₁ l₂ : List Nat) :
    succBatches cfg (l₁ ++ l₂) = succBatches cfg l₁ ++ succBatches cfg l₂ := by
  simp [succBatches]

theorem succBatches_perm (cfg : Cfg) {l₁ l₂ : List Nat} (h : List.Perm l₁ l₂) :
    List.Perm (succBatches cfg l₁) (succBatches cfg l₂) :=
  (h.map (optBatch cfg)).flatten

/-- Removing one in-flight page removes exactly its batch from the account. -/
theorem succBatches_erase (cfg : Cfg) {p : Nat} {l : List Nat} (hp : p ∈ l) :
    (succBatches cfg l : Multiset Product)
      = (optBatch cfg p : Multiset Product) + (succBatches cfg (l.erase p) : Multiset Product) := by
  have h := Multiset.coe_eq_coe.mpr (succBatches_perm cfg (List.perm_cons_erase hp))
  rw [h, succBatches_cons]
  exact (Multiset.coe_add _ _).symm

/-- Peeling the next page off the not-yet-dispatched range. -/
theorem pendingPages_peel (cfg : Cfg) (s : PoolState) (h : s.nextPage < cfg.pageMax) :
    pendingPages cfg s
      = s.nextPage :: List.range' (s.nextPage + 1) (cfg.pageMax - (s.nextPage + 1)) := by
  unfold pendingPages
  have hk : cfg.pageMax - s.nextPage = (cfg.pageMax - (s.nextPage + 1)) + 1 := by omega
  rw [hk, List.range'_succ]

/-- Dispatching preserves the run invariant. -/
theorem runInv_stepDispatch (cfg : Cfg) (s : PoolState) (hpan : s.panicked = false)
    (h : RunInv cfg s) : RunInv cfg (stepDispatch cfg s) := by
  obtain ⟨h1, h2, h3, h4, h5⟩ := h
  unfold stepDispatch
  by_cases hd : s.nextPage < cfg.pageMax ∧ s.tasks.length < cfg.maxConcurrent
  · rw [if_pos hd]
    obtain ⟨hd1, hd2⟩ := hd
    refine ⟨?_, ?_, ?_, h4, ?_⟩
    · show s.nextPage + 1 ≤ cfg.pageMax
      omega
    · show s.dispatched ++ [s.nextPage] = List.range (s.nextPage + 1)
      rw [h2, List.range_succ]
    · show (s.tasks ++ [s.nextPage]).length ≤ cfg.maxConcurrent
      rw [List.length_append]
      simp only [List.length_cons, List.length_nil]
      omega
    · intro _
      have hb := h5 hpan
      unfold BatchAccounting at hb
      show (s.agg : Multiset Product) + (bufBatches s : Multiset Product)
          + (succBatches cfg (s.tasks ++ [s.nextPage]) : Multiset Product)
          + (succBatches cfg (List.range' (s.nextPage + 1)
              (cfg.pageMax - (s.nextPage + 1))) : Multiset Product)
          = (succBatches cfg (List.range cfg.pageMax) : Multiset Product)
      rw [pendingPages_peel cfg s hd1, succBatches_cons] at hb
      rw [succBatches_append, succBatches_cons, succBatches_nil, List.append_nil]
      rw [← hb]
      simp only [← Multiset.coe_add]
      abel
  · rw [if_neg hd]
    exact ⟨h1, h2, h3, h4, h5⟩

/-- Closing the channel preserves the run invariant. -/
theorem runInv_stepClose (cfg : Cfg) (s : PoolState) (hpan : s.panicked = false)
    (h : RunInv cfg s) : RunInv cfg (stepClose cfg s) := by
  obtain ⟨h1, h2, h3, h4, h5⟩ := h
  unfold stepClose
  by_cases hc : s.nextPage = cfg.pageMax ∧ s.chanClosed = false ∧
      (cfg.waitsBeforeClose = true → s.tasks = [])
  · rw [if_pos hc]
    exact ⟨h1, h2, h3, h4, fun _ => h5 hpan⟩
  · rw [if_neg hc]
    exact ⟨h1, h2, h3, h4, h5⟩

/-- A fetch-task step preserves the run invariant. -/
theorem runInv_stepTask (cfg : Cfg) (s : PoolState) (p : Nat) (hpan : s.panicked = false)
    (h : RunInv cfg s) : RunInv cfg (stepTask cfg s p) := by
  obtain ⟨h1, h2, h3, h4, h5⟩ := h
  unfold stepTask
  by_cases hmem : p ∈ s.tasks
  · rw [if_pos hmem]
    cases hf : cfg.fetch p with
    | none =>
      refine ⟨h1, h2, ?_, h4, ?_⟩
      · show (s.tasks.erase p).length ≤ cfg.maxConcurrent
        exact le_trans (List.erase_sublist p s.tasks).length_le h3
      · intro _
        have hb := h5 hpan
        unfold BatchAccounting at hb
        have he : (succBatches cfg s.tasks : Multiset Product)
            = (succBatches cfg (s.tasks.erase p) : Multiset Product) := by
          rw [succBatches_erase cfg hmem]
          simp [optBatch, hf]
        show (s.agg : Multiset Product) + (bufBatches s : Multiset Product)
            + (succBatches cfg (s.tasks.erase p) : Multiset Product)
            + (succBatches cfg (pendingPages cfg s) : Multiset Product)
            = (succBatches cfg (List.range cfg.pageMax) : Multiset Product)
        rw [← he]
        exact hb
    | some resp =>
      show RunInv cfg (if s.chanClosed = true then { s with panicked := true } else if s.chanBuf.length < cfg.maxConcurrent then { s with tasks := s.tasks.erase p, chanBuf := s.chanBuf ++ [(p, resp.data.products)], sentPages := s.sentPages ++ [p] } else s)
      by_cases hcl : s.chanClosed = true
      · rw [if_pos hcl]
        exact ⟨h1, h2, h3, h4, fun hff => by simp at hff⟩
      · rw [if_neg hcl]
        by_cases hroom : s.chanBuf.length < cfg.maxConcurrent
        · rw [if_pos hroom]
          refine ⟨h1, h2, ?_, ?_, ?_⟩
          · show (s.tasks.erase p).length ≤ cfg.maxConcurrent
            exact le_trans (List.erase_sublist p s.tasks).length_le h3
          · show ∀ q ∈ s.sentPages ++ [p], (cfg.fetch q).isSome = true
            intro q hq
            rcases List.mem_append.mp hq with hq | hq
            · exact h4 q hq
            · rcases List.mem_singleton.mp hq with rfl
              rw [hf]; rfl
          · intro _
            have hb := h5 hpan
            unfold BatchAccounting at hb
            have he : (succBatches cfg s.tasks : Multiset Product)
                = (resp.data.products : Multiset Product)
                  + (succBatches cfg (s.tasks.erase p) : Multiset Product) := by
              rw [succBatches_erase cfg hmem]
              have ho : optBatch cfg p = resp.data.products := by
                simp [optBatch, hf]
              rw [ho]
            have hbuf : ((((s.chanBuf ++ [(p, resp.data.products)]).map Prod.snd).flatten
                  : List Product) : Multiset Product)
                = (bufBatches s : Multiset Product)
                  + (resp.data.products : Multiset Product) := by
              rw [List.map_append, List.flatten_append, ← Multiset.coe_add]
              unfold bufBatches
              simp
            show (s.agg : Multiset Product)
                + ((((s.chanBuf ++ [(p, resp.data.products)]).map Prod.snd).flatten
                    : List Product) : Multiset Product)
                + (succBatches cfg (s.tasks.erase p) : Multiset Product)
                + (succBatches cfg (pendingPages cfg s) : Multiset Product)
                = (succBatches cfg (List.range cfg.pageMax) : Multiset Product)
            rw [hbuf, ← hb, he]
            abel
        · rw [if_neg hroom]
          exact ⟨h1, h2, h3, h4, h5⟩
  · rw [if_neg hmem]
    exact ⟨h1, h2, h3, h4, h5⟩

/-- A consumer step preserves the run invariant. -/
theorem runInv_stepRecv (cfg : Cfg) (s : PoolState) (hpan : s.panicked = false)
    (h : RunInv cfg s) : RunInv cfg (stepRecv s) := by
  obtain ⟨h1, h2, h3, h4, h5⟩ := h
  unfold stepRecv
  cases hbuf : s.chanBuf with
  | nil => exact ⟨h1, h2, h3, h4, h5⟩
  | cons hd rest =>
    obtain ⟨q, b⟩ := hd
    refine ⟨h1, h2, h3, h4, ?_⟩
    intro _
    have hb := h5 hpan
    unfold BatchAccounting at hb
    have hsplit : (bufBatches s : Multiset Product)
        = (b : Multiset Product) + ((rest.map Prod.snd).flatten : Multiset Product) := by
      unfold bufBatches
      rw [hbuf]
      simp only [List.map_cons, List.flatten_cons]
      rw [← Multiset.coe_add]
    show ((s.agg ++ b : List Product) : Multiset Product)
        + (((rest.map Prod.snd).flatten : List Product) : Multiset Product)
        + (succBatches cfg s.tasks : Multiset Product)
        + (succBatches cfg (pendingPages cfg s) : Multiset Product)
        = (succBatches cfg (List.range cfg.pageMax) : Multiset Product)
    rw [← hb, hsplit, ← Multiset.coe_add]
    abel

/-- Every scheduler step preserves the run invariant. -/
theorem runInv_step (cfg : Cfg) (s : PoolState) (a : Act) (h : RunInv cfg s) :
    RunInv cfg (step cfg s a) := by
  by_cases hpan : s.panicked = true
  · have hs : step cfg s a = s := by simp [step, hpan]
    rw [hs]
    exact h
  · have hpan' : s.panicked = false := by simpa using hpan
    cases a with
    | dispatch =>
      have hs : step cfg s Act.dispatch = stepDispatch cfg s := by simp [step, hpan']
      rw [hs]
      exact runInv_stepDispatch cfg s hpan' h
    | closeCh =>
      have hs : step cfg s Act.closeCh = stepClose cfg s := by simp [step, hpan']
      rw [hs]
      exact runInv_stepClose cfg s hpan' h
    | task p =>
      have hs : step cfg s (Act.task p) = stepTask cfg s p := by simp [step, hpan']
      rw [hs]
      exact runInv_stepTask cfg s p hpan' h
    | recv =>
      have hs : step cfg s Act.recv = stepRecv s := by simp [step, hpan']
      rw [hs]
      exact runInv_stepRecv cfg s hpan' h

/-- The run invariant holds in the initial state. -/
theorem runInv_initState (cfg : Cfg) : RunInv cfg initState := by
  refine ⟨Nat.zero_le _, rfl, Nat.zero_le _, ?_, ?_⟩
  · intro p hp
    cases hp
  · intro _
    show ((([] : List Product) : Multiset Product) + (([] : List Product) : Multiset Product)
        + (succBatches cfg ([] : List Nat) : Multiset Product)
        + (succBatches cfg (List.range' 0 (cfg.pageMax - 0)) : Multiset Product))
        = (succBatches cfg (List.range cfg.pageMax) : Multiset Product)
    rw [Nat.sub_zero, ← List.range_eq_range']
    simp [succBatches]

/-- The run invariant holds after any schedule. -/
theorem runInv_runSched (cfg : Cfg) (acts : List Act) : RunInv cfg (runSched cfg acts) := by
  suffices h : ∀ t : PoolState, RunInv cfg t → RunInv cfg (acts.foldl (step cfg) t) from
    h initState (runInv_initState cfg)
  induction acts with
  | nil =>
    intro t ht
    exact ht
  | cons a tl ih =>
    intro t ht
    exact ih (step cfg t a) (runInv_step cfg t a ht)

/-- In a cleanly finished run, the aggregated collection is exactly the
concatenation of the succeeding pages' batches (up to order). -/
theorem completeRun_agg (cfg : Cfg) (acts : List Act)
    (h : CompleteRun cfg (runSched cfg acts)) :
    ((runSched cfg acts).agg : Multiset Product)
      = (succBatches cfg (List.range cfg.pageMax) : Multiset Product) := by
  obtain ⟨hN, hT, hC, hB, hP⟩ := h
  have hb := (runInv_runSched cfg acts).2.2.2.2 hP
  unfold BatchAccounting at hb
  rw [hT] at hb
  have hbuf : bufBatches (runSched cfg acts) = [] := by
    unfold bufBatches
    rw [hB]
    rfl
  rw [hbuf] at hb
  have hpend : pendingPages cfg (runSched cfg acts) = [] := by
    unfold pendingPages
    rw [hN, Nat.sub_self]
    rfl
  rw [hpend] at hb
  simpa [succBatches] using hb

/-! ## Pipeline claims -/

/-- C1: in every run over `pageMax = N` pages that runs to completion — for
any set `F ⊆ [0,N)` of failing pages, as chosen by the fetch oracle — the
final aggregated collection `allProducts` is, as a multiset, exactly the
union of the `ResultBatch`es of the `N - |F|` succeeding pages: each record
of a succeeding page appears exactly once and no record of a failing page
appears at all (failing pages contribute the empty batch to
`succBatches`). -/
theorem aggregation_completeness (cfg : Cfg) (acts : List Act)
    (h : CompleteRun cfg (runSched cfg acts)) :
    ((runSched cfg acts).agg : Multiset Product)
      = (succBatches cfg (List.range cfg.pageMax) : Multiset Product) :=
  completeRun_agg cfg acts h

/-- C3: for any page count and any concurrency ceiling, at no instant do more
fetch tasks hold a semaphore slot (equivalently, execute the fetcher) than
`maxConcurrent`; every reachable state is `runSched cfg acts` for some
schedule, so the bound holds at every instant of every run. -/
theorem concurrency_bound (cfg : Cfg) (acts : List Act)
    (hmc : 1 ≤ cfg.maxConcurrent) :
    (runSched cfg acts).tasks.length ≤ cfg.maxConcurrent :=
  (runInv_runSched cfg acts).2.2.1

/-- C6: in every cleanly finished run, the sequence of dispatched page
indices is exactly `0, 1, ..., pageMax - 1`: every index in `[0, pageMax)`
is dispatched, in increasing order, and no index is ever dispatched twice —
in particular there is no re-dispatch after a fetch failure. -/
theorem dispatch_exactly_once (cfg : Cfg) (acts : List Act)
    (h : CompleteRun cfg (runSched cfg acts)) :
    (runSched cfg acts).dispatched = List.range cfg.pageMax ∧
    (runSched cfg acts).dispatched.Nodup := by
  have hd := (runInv_runSched cfg acts).2.1
  rw [h.1] at hd
  refine ⟨hd, ?_⟩
  rw [hd]
  exact List.nodup_range _

/-- C7: a fetch failure on page `p` is never fatal.  The failing task's step
changes nothing but removing `p` from the in-flight set (it releases its
semaphore slot and signals completion, sends no batch, does not panic and
leaves the aggregation untouched); moreover in any cleanly finished run no
batch was ever sent for `p`, and the aggregated result is still exactly the
union of the succeeding pages' batches, so the rest of the run is
unaffected. -/
theorem fetchError_isolated (cfg : Cfg) (p : Nat) (acts₁ acts₂ : List Act)
    (hp : cfg.fetch p = none)
    (hmem : p ∈ (runSched cfg acts₁).tasks)
    (hnp : (runSched cfg acts₁).panicked = false)
    (hc : CompleteRun cfg (runSched cfg acts₂)) :
    step cfg (runSched cfg acts₁) (Act.task p)
        = { runSched cfg acts₁ with tasks := (runSched cfg acts₁).tasks.erase p } ∧
    p ∉ (runSched cfg acts₂).sentPages ∧
    ((runSched cfg acts₂).agg : Multiset Product)
      = (succBatches cfg (List.range cfg.pageMax) : Multiset Product) := by
  refine ⟨?_, ?_, completeRun_agg cfg acts₂ hc⟩
  · have hs : step cfg (runSched cfg acts₁) (Act.task p)
        = stepTask cfg (runSched cfg acts₁) p := by
      simp [step, hnp]
    rw [hs]
    unfold stepTask
    rw [if_pos hmem, hp]
  · intro hmem2
    have h4 := (runInv_runSched cfg acts₂).2.2.2.1 p hmem2
    rw [hp] at h4
    simp at h4

/-- With `pageMax = 0` the dispatch loop never fires: every reachable state
is the initial state, possibly with the channel already closed. -/
theorem zeroPages_run (cfg : Cfg) (h0 : cfg.pageMax = 0) (acts : List Act) :
    runSched cfg acts = initState ∨
    runSched cfg acts = { initState with chanClosed := true } := by
  suffices h : ∀ t : PoolState,
      (t = initState ∨ t = { initState with chanClosed := true }) →
      (acts.foldl (step cfg) t = initState ∨
        acts.foldl (step cfg) t = { initState with chanClosed := true }) from
    h initState (Or.inl rfl)
  induction acts with
  | nil =>
    intro t ht
    exact ht
  | cons a tl ih =>
    intro t ht
    refine ih (step cfg t a) ?_
    rcases ht with rfl | rfl <;> cases a
    · left; simp [step, stepDispatch, initState, h0]
    · right; simp [step, stepClose, initState, h0]
    · left; simp [step, stepTask, initState]
    · left; simp [step, stepRecv, initState]
    · right; simp [step, stepDispatch, initState, h0]
    · right; simp [step, stepClose, initState, h0]
    · right; simp [step, stepTask, initState]
    · right; simp [step, stepRecv, initState]

/-- C5: with `pageMax = 0` the worker pool dispatches no fetch task at all,
the aggregated collection stays empty, and both writers produce header-only
output: the CSV writer just its header record, the Markdown writer just the
header and separator lines, with no data rows. -/
theorem zeroPages_headerOnly (cfg : Cfg) (acts : List Act) (h0 : cfg.pageMax = 0) :
    (runSched cfg acts).dispatched = [] ∧ (runSched cfg acts).agg = [] ∧
    writeCSVRows (runSched cfg acts).agg = [csvHeader] ∧
    writeMarkdownLines (runSched cfg acts).agg
      = [markdownHeaderLine, markdownSeparatorLine] := by
  rcases zeroPages_run cfg h0 acts with h | h <;> rw [h] <;> exact ⟨rfl, rfl, rfl, rfl⟩

/-- Equation: a task whose page is not in flight does nothing. -/
theorem stepTask_notMem (cfg : Cfg) (t : PoolState) (p : Nat) (hmem : p ∉ t.tasks) :
    stepTask cfg t p = t := by
  unfold stepTask
  rw [if_neg hmem]

/-- Equation: a failing task just leaves the in-flight set. -/
theorem stepTask_none (cfg : Cfg) (t : PoolState) (p : Nat) (hmem : p ∈ t.tasks)
    (hf : cfg.fetch p = none) :
    stepTask cfg t p = { t with tasks := t.tasks.erase p } := by
  unfold stepTask
  rw [if_pos hmem, hf]

/-- Equation: a successful task panics on a closed channel, otherwise sends
when the buffer has room. -/
theorem stepTask_some (cfg : Cfg) (t : PoolState) (p : Nat) (resp : Response)
    (hmem : p ∈ t.tasks) (hf : cfg.fetch p = some resp) :
    stepTask cfg t p
      = if t.chanClosed = true then { t with panicked := true }
        else if t.chanBuf.length < cfg.maxConcurrent then
          { t with tasks := t.tasks.erase p,
                   chanBuf := t.chanBuf ++ [(p, resp.data.products)],
                   sentPages := t.sentPages ++ [p] }
        else t := by
  unfold stepTask
  rw [if_pos hmem, hf]

/-- One step preserves the close-after-completion property of the `part_000`
variant: the channel can only be (and stay) closed with the dispatch loop
done and no task in flight, and no run ever panics. -/
theorem waitsClose_step (cfg : Cfg) (hw : cfg.waitsBeforeClose = true)
    (t : PoolState) (a : Act)
    (h : t.panicked = false ∧
      (t.chanClosed = true → t.tasks = [] ∧ t.nextPage = cfg.pageMax)) :
    (step cfg t a).panicked = false ∧
    ((step cfg t a).chanClosed = true →
      (step cfg t a).tasks = [] ∧ (step cfg t a).nextPage = cfg.pageMax) := by
  obtain ⟨hp, hc⟩ := h
  cases a with
  | dispatch =>
    have hs : step cfg t Act.dispatch = stepDispatch cfg t := by simp [step, hp]
    rw [hs]
    unfold stepDispatch
    by_cases hd : t.nextPage < cfg.pageMax ∧ t.tasks.length < cfg.maxConcurrent
    · rw [if_pos hd]
      refine ⟨hp, ?_⟩
      intro hcl
      exfalso
      have h2 := (hc hcl).2
      have h1 := hd.1
      omega
    · rw [if_neg hd]
      exact ⟨hp, hc⟩
  | closeCh =>
    have hs : step cfg t Act.closeCh = stepClose cfg t := by simp [step, hp]
    rw [hs]
    unfold stepClose
    by_cases hcc : t.nextPage = cfg.pageMax ∧ t.chanClosed = false ∧
        (cfg.waitsBeforeClose = true → t.tasks = [])
    · rw [if_pos hcc]
      exact ⟨hp, fun _ => ⟨hcc.2.2 hw, hcc.1⟩⟩
    · rw [if_neg hcc]
      exact ⟨hp, hc⟩
  | task p =>
    have hs : step cfg t (Act.task p) = stepTask cfg t p := by simp [step, hp]
    rw [hs]
    by_cases hmem : p ∈ t.tasks
    · cases hf : cfg.fetch p with
      | none =>
        rw [stepTask_none cfg t p hmem hf]
        refine ⟨hp, ?_⟩
        intro hcl
        have hT := (hc hcl).1
        rw [hT] at hmem
        cases hmem
      | some resp =>
        rw [stepTask_some cfg t p resp hmem hf]
        by_cases hcl : t.chanClosed = true
        · exfalso
          have hT := (hc hcl).1
          rw [hT] at hmem
          cases hmem
        · rw [if_neg hcl]
          by_cases hroom : t.chanBuf.length < cfg.maxConcurrent
          · rw [if_pos hroom]
            exact ⟨hp, fun hclosed => absurd hclosed hcl⟩
          · rw [if_neg hroom]
            exact ⟨hp, hc⟩
    · rw [stepTask_notMem cfg t p hmem]
      exact ⟨hp, hc⟩
  | recv =>
    have hs : step cfg t Act.recv = stepRecv t := by simp [step, hp]
    rw [hs]
    unfold stepRecv
    cases hbuf : t.chanBuf with
    | nil => exact ⟨hp, hc⟩
    | cons hd rest =>
      obtain ⟨q, b⟩ := hd
      exact ⟨hp, fun hcl => hc hcl⟩

/-- In the `part_000` variant — `close(productsChan)` only after
`wg.Wait()` — the channel is closed only once the dispatch loop is done and
every task has completed, and consequently no run ever panics: no task can
ever attempt a send on a closed channel. -/
theorem waitsBeforeClose_safe (cfg : Cfg) (hw : cfg.waitsBeforeClose = true)
    (acts : List Act) :
    (runSched cfg acts).panicked = false ∧
    ((runSched cfg acts).chanClosed = true →
      (runSched cfg acts).tasks = [] ∧ (runSched cfg acts).nextPage = cfg.pageMax) := by
  suffices h : ∀ t : PoolState,
      (t.panicked = false ∧ (t.chanClosed = true → t.tasks = [] ∧ t.nextPage = cfg.pageMax)) →
      ((acts.foldl (step cfg) t).panicked = false ∧
        ((acts.foldl (step cfg) t).chanClosed = true →
          (acts.foldl (step cfg) t).tasks = [] ∧
          (acts.foldl (step cfg) t).nextPage = cfg.pageMax)) from
    h initState ⟨rfl, fun hcl => by cases hcl⟩
  induction acts with
  | nil =>
    intro t ht
    exact ht
  | cons a tl ih =>
    intro t ht
    exact ih (step cfg t a) (waitsClose_step cfg hw t a ht)

/-! ## Concrete runs: the close race of `main.go`, and witnesses -/

/-- A concrete response carrying one product. -/
def sampleResponse : Response :=
  { message := "ok", data := { products := [sampleProduct], total := 1, start := 0 } }

/-- The `main.go` variant with one page whose fetch succeeds: the dispatcher
closes `productsChan` right after the dispatch loop, without waiting for the
in-flight tasks. -/
def mainGoCfg : Cfg :=
  { pageMax := 1, maxConcurrent := 5, fetch := fun _ => some sampleResponse,
    waitsBeforeClose := false }

/-- C2 is violated by `main.go`: there is an execution in which the channel
is closed while the task for page 0 is still in flight (the dispatch loop
has ended, so `close(productsChan)` runs), and that task's subsequent send
hits the closed channel — in Go, a panic.  (`waitsBeforeClose_safe` shows
the `part_000` variant, which waits on the `WaitGroup` before closing, can
never reach this state.) -/
theorem closeRace_sendOnClosed :
    (runSched mainGoCfg [Act.dispatch, Act.closeCh]).chanClosed = true ∧
    (runSched mainGoCfg [Act.dispatch, Act.closeCh]).tasks = [0] ∧
    (runSched mainGoCfg [Act.dispatch, Act.closeCh, Act.task 0]).panicked = true := by
  refine ⟨rfl, rfl, rfl⟩

/-- Example configuration for the witnesses: two pages, page 0 succeeds,
page 1 fails, `part_000`-style close. -/
def exCfg : Cfg :=
  { pageMax := 2, maxConcurrent := 5,
    fetch := fun p => if p = 0 then some sampleResponse else none,
    waitsBeforeClose := true }

/-- A schedule that runs `exCfg` to clean completion. -/
def exActs : List Act :=
  [Act.dispatch, Act.dispatch, Act.task 0, Act.task 1, Act.recv, Act.closeCh]

theorem aggregation_completeness_witness :
    CompleteRun exCfg (runSched exCfg exActs) ∧
    ((runSched exCfg exActs).agg : Multiset Product)
      = (succBatches exCfg (List.range exCfg.pageMax) : Multiset Product) :=
  ⟨by decide, aggregation_completeness exCfg exActs (by decide)⟩

theorem concurrency_bound_witness :
    1 ≤ exCfg.maxConcurrent ∧
    (runSched exCfg exActs).tasks.length ≤ exCfg.maxConcurrent :=
  ⟨by decide, concurrency_bound exCfg exActs (by decide)⟩

theorem dispatch_exactly_once_witness :
    CompleteRun exCfg (runSched exCfg exActs) ∧
    ((runSched exCfg exActs).dispatched = List.range exCfg.pageMax ∧
      (runSched exCfg exActs).dispatched.Nodup) :=
  ⟨by decide, dispatch_exactly_once exCfg exActs (by decide)⟩

theorem fetchError_isolated_witness :
    (exCfg.fetch 1 = none ∧ 1 ∈ (runSched exCfg [Act.dispatch, Act.dispatch]).tasks) ∧
    1 ∉ (runSched exCfg exActs).sentPages ∧
    ((runSched exCfg exActs).agg : Multiset Product)
      = (succBatches exCfg (List.range exCfg.pageMax) : Multiset Product) := by
  have h := fetchError_isolated exCfg 1 [Act.dispatch, Act.dispatch] exActs
    (by decide) (by decide) (by decide) (by decide)
  exact ⟨⟨by decide, by decide⟩, h.2.1, h.2.2⟩

/-- A zero-page configuration. -/
def zeroCfg : Cfg :=
  { pageMax := 0, maxConcurrent := 5, fetch := fun _ => none,
    waitsBeforeClose := false }

theorem zeroPages_headerOnly_witness :
    zeroCfg.pageMax = 0 ∧
    ((runSched zeroCfg [Act.closeCh, Act.recv]).dispatched = [] ∧
      (runSched zeroCfg [Act.closeCh, Act.recv]).agg = [] ∧
      writeCSVRows (runSched zeroCfg [Act.closeCh, Act.recv]).agg = [csvHeader] ∧
      writeMarkdownLines (runSched zeroCfg [Act.closeCh, Act.recv]).agg
        = [markdownHeaderLine, markdownSeparatorLine]) :=
  ⟨rfl, zeroPages_headerOnly zeroCfg [Act.closeCh, Act.recv] rfl⟩
